import Mathlib

/-!
Verification of the Bagel confidential payroll program.

This file shallowly embeds the Rust sources of the repository
(`programs/bagel/src/...`) in Lean 4.  Machine integers are modelled as
`Nat` / `Int` with explicit width checks (`u64` values live below
`2 ^ 64`, `i64` values inside `[-2 ^ 63, 2 ^ 63 - 1]`); Rust `Result`
values become `Except`, and every on-chain handler is a pure function
from its pre-state to `Except error (post-state × outputs)`.  An `error`
result models an aborted Solana transaction: the pre-state stays
authoritative and no partial mutation survives, which is how the host
runtime treats a returned error.

External collaborators that are not part of the repository sources
(the Inco Lightning program invoked by CPI, Arcium's
`SignedComputationOutputs::verify_output`, PDA hashing, value
transfer) are modelled from the specification; the corresponding
definitions carry a `Modelled from the spec:` doc comment.
-/

/-! ## Little-endian byte encoding (`u64::to_le_bytes` / `from_le_bytes`) -/

/-- The eight little-endian bytes of a `u64`, as in `u64::to_le_bytes`. -/
def toLeBytes8 (n : Nat) : List Nat :=
  [n % 256, n / 256 % 256, n / 65536 % 256, n / 16777216 % 256,
   n / 4294967296 % 256, n / 1099511627776 % 256,
   n / 281474976710656 % 256, n / 72057594037927936 % 256]

/-- Reassemble a `u64` from the first eight bytes of a list, as in
`u64::from_le_bytes(bytes[0..8])`. -/
def fromLeBytes8 (l : List Nat) : Nat :=
  l.getD 0 0 + 256 * l.getD 1 0 + 65536 * l.getD 2 0 + 16777216 * l.getD 3 0 +
  4294967296 * l.getD 4 0 + 1099511627776 * l.getD 5 0 +
  281474976710656 * l.getD 6 0 + 72057594037927936 * l.getD 7 0

theorem fromLeBytes8_toLeBytes8 (n : Nat) (h : n < 2 ^ 64) :
    fromLeBytes8 (toLeBytes8 n) = n := by
  show n % 256 + 256 * (n / 256 % 256) + 65536 * (n / 65536 % 256) +
      16777216 * (n / 16777216 % 256) + 4294967296 * (n / 4294967296 % 256) +
      1099511627776 * (n / 1099511627776 % 256) +
      281474976710656 * (n / 281474976710656 % 256) +
      72057594037927936 * (n / 72057594037927936 % 256) = n
  omega

theorem toLeBytes8_length (n : Nat) : (toLeBytes8 n).length = 8 := rfl

/-! ## Checked machine arithmetic -/

/-- Source `i64::MIN` -/
def i64Min : Int := -(2 ^ 63)

/-- Source `i64::MAX` -/
def i64Max : Int := 2 ^ 63 - 1

/-- Source `i64::checked_sub`: `None` exactly when the mathematical difference
leaves the `i64` range. -/
def checkedSubI64 (a b : Int) : Option Int :=
  if i64Min ≤ a - b ∧ a - b ≤ i64Max then some (a - b) else none

/-- Source `u64::checked_sub`: `None` on underflow. -/
def checkedSubU64 (a b : Nat) : Option Nat :=
  if b ≤ a then some (a - b) else none

/-- The `as u64` cast of an `i64` value (two's-complement wrap). -/
def i64ToU64 (x : Int) : Nat := (x % (2 ^ 64 : Int)).toNat

theorem i64ToU64_of_nonneg (x : Int) (h0 : 0 ≤ x) (h1 : x ≤ i64Max) :
    i64ToU64 x = x.toNat := by
  unfold i64ToU64 i64Max at *
  rw [Int.emod_eq_of_lt h0 (by omega)]

instance {ε α : Type} [DecidableEq ε] [DecidableEq α] :
    DecidableEq (Except ε α) := fun x y =>
  match x, y with
  | .error a, .error b =>
      if h : a = b then .isTrue (by rw [h])
      else .isFalse (by intro hc; cases hc; exact h rfl)
  | .ok a, .ok b =>
      if h : a = b then .isTrue (by rw [h])
      else .isFalse (by intro hc; cases hc; exact h rfl)
  | .error _, .ok _ => .isFalse (by intro hc; cases hc)
  | .ok _, .error _ => .isFalse (by intro hc; cases hc)

/-! ## `privacy/mod.rs` — mock EncryptedU64 (`ErrorCode`, `EncryptedU64`) -/

/-- Source `privacy/mod.rs` `ErrorCode`. -/
inductive ErrorCode where
  | EncryptionFailed
  | DecryptionFailed
  | ArithmeticOverflow
deriving DecidableEq, Repr

/-- Source `privacy/mod.rs` `EncryptedU64`: ciphertext bytes (the mock stores the
plaintext's little-endian bytes). -/
structure EncryptedU64 where
  ciphertext : List Nat
deriving DecidableEq, Repr

/-- Source `EncryptedU64::new`: stores `plaintext.to_le_bytes()`. -/
def EncryptedU64.new (plaintext : Nat) : EncryptedU64 :=
  ⟨toLeBytes8 plaintext⟩

/-- Source `EncryptedU64::decrypt`: fails with `DecryptionFailed` if fewer than
8 ciphertext bytes, otherwise reads `u64::from_le_bytes(bytes[0..8])`. -/
def EncryptedU64.decrypt (e : EncryptedU64) : Except ErrorCode Nat :=
  if e.ciphertext.length < 8 then .error .DecryptionFailed
  else .ok (fromLeBytes8 e.ciphertext)

/-- Source `EncryptedU64::multiply_by_scalar`: decrypt, `checked_mul`, re-encrypt;
`checked_mul` fails with `ArithmeticOverflow` when the product leaves `u64`. -/
def EncryptedU64.multiply_by_scalar (e : EncryptedU64) (scalar : Nat) :
    Except ErrorCode EncryptedU64 :=
  match e.decrypt with
  | .error er => .error er
  | .ok plaintext =>
      if plaintext * scalar < 2 ^ 64 then .ok (.new (plaintext * scalar))
      else .error .ArithmeticOverflow

/-- Source `privacy/mod.rs` `encrypt_salary`. -/
def encrypt_salary (amount : Nat) : EncryptedU64 := .new amount

/-- Source `privacy/mod.rs` `calculate_accrued`:
`encrypted_salary_per_second.multiply_by_scalar(elapsed_seconds)`. -/
def calculate_accrued (encrypted_salary_per_second : EncryptedU64)
    (elapsed_seconds : Nat) : Except ErrorCode EncryptedU64 :=
  encrypted_salary_per_second.multiply_by_scalar elapsed_seconds

/-- Source `privacy/mod.rs` `decrypt_for_transfer`. -/
def decrypt_for_transfer (encrypted_amount : EncryptedU64) :
    Except ErrorCode Nat :=
  encrypted_amount.decrypt

theorem EncryptedU64.decrypt_new_eq (n : Nat) (h : n < 2 ^ 64) :
    (EncryptedU64.new n).decrypt = .ok n := by
  unfold EncryptedU64.new EncryptedU64.decrypt
  simp [toLeBytes8_length, fromLeBytes8_toLeBytes8 n h]

/-! ## `privacy/inco.rs` — Euint128 / ConfidentialBalance (`IncoError`) -/

/-- The 16 little-endian bytes of a `u128`, as in `u128::to_le_bytes`. -/
def toLeBytes16 (n : Nat) : List Nat :=
  (List.range 16).map fun i => n / 256 ^ i % 256

/-- Reassemble a `u128` from 16 little-endian bytes. -/
def fromLeBytes16 (l : List Nat) : Nat :=
  ((List.range 16).map fun i => 256 ^ i * l.getD i 0).sum

/-- Source `privacy/inco.rs` `IncoError`. -/
inductive IncoError where
  | Overflow
  | Underflow
  | DecryptionFailed
  | EncryptionFailed
  | AccessDenied
  | InvalidProgram
deriving DecidableEq, Repr

/-- The mock XOR mask `b"INCO_ENCRYPTED__"` (ASCII bytes). -/
def incoMask : List Nat :=
  [73, 78, 67, 79, 95, 69, 78, 67, 82, 89, 80, 84, 69, 68, 95, 95]

/-- Source `privacy/inco.rs` `Euint128`: a 16-byte handle. -/
structure Euint128 where
  handle : List Nat
deriving DecidableEq, Repr

/-- Source `Euint128::new`: XORs each little-endian byte of the value with the
constant mask. -/
def Euint128.new (value : Nat) : Euint128 :=
  ⟨List.zipWith (fun a b => a ^^^ b) (toLeBytes16 value) incoMask⟩

/-- Source `Euint128::decrypt`: reverses the XOR mask (the mock never fails). -/
def Euint128.decrypt (e : Euint128) : Except IncoError Nat :=
  .ok (fromLeBytes16 (List.zipWith (fun a b => a ^^^ b) e.handle incoMask))

/-- Source `privacy/inco.rs` `ConfidentialBalance`: an encrypted amount plus an
optional owner key. -/
structure ConfidentialBalance where
  encrypted_amount : Euint128
  owner : Option (List Nat)
deriving DecidableEq, Repr

/-- Source `ConfidentialBalance::new`: encrypts the `u64` amount as a `u128`. -/
def ConfidentialBalance.new (amount : Nat) : ConfidentialBalance :=
  ⟨Euint128.new amount, none⟩

/-- Source `ConfidentialBalance::decrypt`: decrypts the `u128` and fails with
`Overflow` if the value does not fit in `u64`. -/
def ConfidentialBalance.decrypt (b : ConfidentialBalance) :
    Except IncoError Nat :=
  match b.encrypted_amount.decrypt with
  | .error er => .error er
  | .ok value => if 2 ^ 64 ≤ value then .error .Overflow else .ok value

/-- Source `ConfidentialBalance::multiply_scalar`: decrypt, `checked_mul` at `u64`
width, re-encrypt; `checked_mul` fails with `Overflow` when the product
leaves `u64`. -/
def ConfidentialBalance.multiply_scalar (b : ConfidentialBalance)
    (scalar : Nat) : Except IncoError ConfidentialBalance :=
  match b.decrypt with
  | .error er => .error er
  | .ok amount =>
      if amount * scalar < 2 ^ 64 then .ok (.new (amount * scalar))
      else .error .Overflow

theorem xor_xor_cancel (a m : Nat) : (a ^^^ m) ^^^ m = a := by
  rw [Nat.xor_assoc, Nat.xor_self, Nat.xor_zero]

theorem fromLeBytes16_toLeBytes16 (n : Nat) (h : n < 2 ^ 128) :
    fromLeBytes16 (toLeBytes16 n) = n := by
  simp only [toLeBytes16, fromLeBytes16, List.range_succ, List.map_append,
    List.map_cons, List.map_nil, List.sum_append, List.sum_cons, List.sum_nil,
    List.range_zero, List.getD, List.getElem?_append, List.getElem?_cons_zero,
    List.getElem?_cons_succ]
  norm_num [List.getD, List.getElem?_map, List.getElem?_range]
  omega

theorem Euint128.decrypt_new_eq128 (n : Nat) (h : n < 2 ^ 128) :
    (Euint128.new n).decrypt = .ok n := by
  unfold Euint128.new Euint128.decrypt
  have hlen : (toLeBytes16 n).length = 16 := by simp [toLeBytes16]
  have hz : List.zipWith (fun a b => a ^^^ b)
      (List.zipWith (fun a b => a ^^^ b) (toLeBytes16 n) incoMask) incoMask
      = toLeBytes16 n := by
    apply List.ext_getElem
    · simp [incoMask, hlen]
    · intro i h1 h2
      simp only [List.getElem_zipWith]
      exact xor_xor_cancel _ _
  rw [hz, fromLeBytes16_toLeBytes16 n h]

theorem ConfidentialBalance.decrypt_new_eqcb (n : Nat) (h : n < 2 ^ 64) :
    (ConfidentialBalance.new n).decrypt = .ok n := by
  unfold ConfidentialBalance.new ConfidentialBalance.decrypt
  rw [show (⟨Euint128.new n, none⟩ : ConfidentialBalance).encrypted_amount
      = Euint128.new n from rfl,
    Euint128.decrypt_new_eq128 n (by have := h; norm_num at this ⊢; omega)]
  have hn : ¬ (2 ^ 64 ≤ n) := by omega
  simp [hn]
  omega

/-! ## `privacy/arcium.rs` — ConfidentialBalance used by `bake_payroll` -/

/-- A Solana public key, modelled as its 32 bytes. -/
abbrev Pubkey := List Nat

/-- Source `Pubkey::default()`: the all-zero key. -/
def defaultPubkey : Pubkey := List.replicate 32 0

/-- Source `privacy/arcium.rs` `ConfidentialBalance` (a distinct Rust type from the
Inco one; renamed here to avoid the clash). -/
structure ArciumConfidentialBalance where
  ciphertext : List Nat
  encryption_pubkey : Option Pubkey
deriving DecidableEq, Repr

/-- Source `arcium.rs` `ConfidentialBalance::new`: stores `amount.to_le_bytes()`. -/
def ArciumConfidentialBalance.new (amount : Nat) : ArciumConfidentialBalance :=
  ⟨toLeBytes8 amount, none⟩

/-- Source `arcium.rs` `encrypt_salary`. -/
def arcium_encrypt_salary (amount : Nat) : ArciumConfidentialBalance :=
  .new amount

/-! ## `error.rs` — `BagelError` for the instruction handlers

`finalize_get_dough_from_mpc_callback.rs` additionally references
`BagelError::ComputationFailed` and `BagelError::InvalidState`, which are
absent from `error.rs` as committed; they are included here because the
callback handler's behaviour is defined in terms of them. -/

inductive BagelError where
  | SalaryTooHigh
  | ArithmeticOverflow
  | WithdrawTooSoon
  | InsufficientFunds
  | NoAccruedDough
  | UnauthorizedEmployer
  | UnauthorizedEmployee
  | SystemPaused
  | EncryptionFailed
  | DecryptionFailed
  | InvalidTimestamp
  | InvalidAmount
  | ArithmeticUnderflow
  | ComputationFailed
  | InvalidState
deriving DecidableEq, Repr

/-- An instruction handler can surface either a `BagelError` or a
`privacy/mod.rs` `ErrorCode` (both convert into Anchor's error type). -/
inductive GetDoughErr where
  | bagel (e : BagelError)
  | privacy (e : ErrorCode)
deriving DecidableEq, Repr

/-! ## `constants.rs` -/

/-- Source `constants.rs` `MAX_SALARY_PER_SECOND` (lamports per second). -/
def MAX_SALARY_PER_SECOND : Nat := 50000000

/-- Source `constants.rs` `MIN_WITHDRAW_INTERVAL` (seconds, an `i64`). -/
def MIN_WITHDRAW_INTERVAL : Int := 60

/-! ## `state/mod.rs` — `PayrollJar` -/

structure PayrollJar where
  employer : Pubkey
  employee : Pubkey
  encrypted_salary_per_second : List Nat
  last_withdraw : Int
  total_accrued : Nat
  dough_vault : Pubkey
  bump : Nat
  is_active : Bool
deriving DecidableEq, Repr

/-! ## `instructions/bake_payroll.rs` and `instructions/update_salary.rs`

The account plumbing (PDA init, signer checks enforced by the Anchor
constraint attributes) is handled by the runtime before the handler body
runs; the handlers below embed the handler bodies. -/

/-- Source `bake_payroll::handler`: rejects salaries above `MAX_SALARY_PER_SECOND`
with `SalaryTooHigh`, otherwise initializes the jar with the Arcium-encrypted
salary, `last_withdraw = now`, and `total_accrued = 0`. -/
def bakePayroll (employer employee : Pubkey) (salary_per_second : Nat)
    (now : Int) (bump : Nat) : Except BagelError PayrollJar :=
  if MAX_SALARY_PER_SECOND < salary_per_second then .error .SalaryTooHigh
  else
    .ok { employer := employer
          employee := employee
          encrypted_salary_per_second :=
            (arcium_encrypt_salary salary_per_second).ciphertext
          last_withdraw := now
          total_accrued := 0
          dough_vault := defaultPubkey
          bump := bump
          is_active := true }

/-- Source `update_salary::handler`: rejects salaries above `MAX_SALARY_PER_SECOND`
with `SalaryTooHigh`, otherwise overwrites the stored encrypted salary with
`new_salary_per_second.to_le_bytes()`. -/
def updateSalary (jar : PayrollJar) (new_salary_per_second : Nat) :
    Except BagelError PayrollJar :=
  if MAX_SALARY_PER_SECOND < new_salary_per_second then .error .SalaryTooHigh
  else .ok { jar with
             encrypted_salary_per_second := toLeBytes8 new_salary_per_second }

/-! ## `instructions/get_dough.rs` -/

/-- Source `get_dough::handler`.  The final lamport movement is the out-of-scope
transfer collaborator (spec §1, §6); the handler returns the updated jar and
the plaintext amount handed to it.  An `error` result models the aborted
transaction (no state change). -/
def getDough (current_time : Int) (jar : PayrollJar) :
    Except GetDoughErr (PayrollJar × Nat) :=
  match checkedSubI64 current_time jar.last_withdraw with
  | none => .error (.bagel .InvalidTimestamp)
  | some time_elapsed =>
    if time_elapsed < MIN_WITHDRAW_INTERVAL then .error (.bagel .WithdrawTooSoon)
    else
      match calculate_accrued ⟨jar.encrypted_salary_per_second⟩
          (i64ToU64 time_elapsed) with
      | .error er => .error (.privacy er)
      | .ok encrypted_accrued =>
        match decrypt_for_transfer encrypted_accrued with
        | .error er => .error (.privacy er)
        | .ok accrued =>
          if accrued = 0 then .error (.bagel .NoAccruedDough)
          else if jar.total_accrued < accrued then
            .error (.bagel .InsufficientFunds)
          else
            match checkedSubU64 jar.total_accrued accrued with
            | none => .error (.bagel .ArithmeticUnderflow)
            | some newTotal =>
              .ok ({ jar with total_accrued := newTotal
                              last_withdraw := current_time }, accrued)

/-! ## `instructions/finalize_get_dough_from_mpc_callback.rs` -/

/-- Source `privacy/mpc_output.rs` `QueueGetDoughMpcOutput`: the decoded MPC output
bytes (32 bytes in the source). -/
structure QueueGetDoughMpcOutput where
  bytes : List Nat
deriving DecidableEq, Repr

/-- Modelled from the spec: Arcium's `SignedComputationOutputs` (the SDK type
is not part of this repository).  Per spec §3/§4.4 a `ComputationResult`
carries the payload, a signature that either does or does not verify against
the cluster's known identity for this request, and the cluster-reported
outcome (`Success`/`Failure`). -/
structure SignedComputationOutputs where
  bytes : List Nat
  sigValid : Bool
  clusterSuccess : Bool
deriving DecidableEq, Repr

/-- Modelled from the spec: `SignedComputationOutputs::verify_output`
(external Arcium SDK).  It yields the decoded output exactly when the BLS
signature verifies for this computation and the cluster reported success;
otherwise it fails. -/
def SignedComputationOutputs.verify_output (o : SignedComputationOutputs) :
    Option QueueGetDoughMpcOutput :=
  if o.sigValid && o.clusterSuccess then some ⟨o.bytes⟩ else none

/-- Source `finalize_get_dough_from_mpc_callback::handler`.  A `verify_output`
failure is mapped by the source to `BagelError::ComputationFailed`.
`magicProgramOk` models the `magic_program.key() == expected` account check;
the `commit_accounts` CPI and the lamport movement are out-of-scope external
collaborators.  An `error` result models the aborted transaction. -/
def finalizeGetDoughFromMpcCallback (current_time : Int) (jar : PayrollJar)
    (output : SignedComputationOutputs) (magicProgramOk : Bool) :
    Except GetDoughErr (PayrollJar × Nat) :=
  match output.verify_output with
  | none => .error (.bagel .ComputationFailed)
  | some decoded =>
    match decrypt_for_transfer ⟨decoded.bytes⟩ with
    | .error er => .error (.privacy er)
    | .ok accrued =>
      if accrued = 0 then .error (.bagel .NoAccruedDough)
      else if jar.total_accrued < accrued then
        .error (.bagel .InsufficientFunds)
      else
        match checkedSubU64 jar.total_accrued accrued with
        | none => .error (.bagel .ArithmeticUnderflow)
        | some newTotal =>
          if magicProgramOk then
            .ok ({ jar with total_accrued := newTotal
                            last_withdraw := current_time }, accrued)
          else .error (.bagel .InvalidAmount)

/-! ## `lib.rs` — maximum-privacy vault program

The Inco Lightning program invoked through CPI (`new_euint128`, `e_add`,
`e_sub`) is external to this repository. -/

/-- Modelled from the spec: a handle produced by the external Inco Lightning
program.  Spec §3/§4.1: handles are opaque references created by encryption
or by a homomorphic operation on existing handles; no component outside the
decrypt boundary branches on their plaintext.  The model keeps them purely
symbolic. -/
inductive IncoHandle where
  | enc (ciphertext : List Nat)
  | add (a b : IncoHandle)
  | sub (a b : IncoHandle)
deriving DecidableEq, Repr

/-- Modelled from the spec: the `new_euint128` CPI (creates a handle from
ciphertext bytes). -/
def new_euint128 (ciphertext : List Nat) : IncoHandle := .enc ciphertext

/-- Modelled from the spec: the homomorphic `e_add` CPI. -/
def e_add (a b : IncoHandle) : IncoHandle := .add a b

/-- Modelled from the spec: the homomorphic `e_sub` CPI. -/
def e_sub (a b : IncoHandle) : IncoHandle := .sub a b

/-- Source `lib.rs` `BagelError` (a distinct enum from `error.rs`; renamed here to
avoid the clash). -/
inductive VaultBagelError where
  | InvalidCiphertext
  | InvalidAmount
  | Overflow
  | Underflow
  | InvalidTimestamp
  | WithdrawTooSoon
  | NoAccruedDough
  | InsufficientFunds
  | Unauthorized
  | PayrollInactive
  | InvalidState
  | IdentityVerificationFailed
deriving DecidableEq, Repr

/-- A `lib.rs` handler aborts either with a returned `BagelError` or with an
arithmetic panic (the Anchor release profile builds with
`overflow-checks = true`, so an unchecked `+=` overflow aborts the
transaction instead of wrapping). -/
inductive VaultErr where
  | bagel (e : VaultBagelError)
  | panicked
deriving DecidableEq, Repr

/-- Source `lib.rs` `MasterVault`. -/
structure MasterVault where
  authority : Pubkey
  total_balance : Nat
  encrypted_business_count : IncoHandle
  encrypted_employee_count : IncoHandle
  next_business_index : Nat
  is_active : Bool
  bump : Nat
  confidential_mint : Pubkey
  use_confidential_tokens : Bool
deriving DecidableEq, Repr

/-- Source `lib.rs` `BusinessEntry`. -/
structure BusinessEntry where
  master_vault : Pubkey
  entry_index : Nat
  encrypted_employer_id : IncoHandle
  encrypted_balance : IncoHandle
  encrypted_employee_count : IncoHandle
  next_employee_index : Nat
  is_active : Bool
  bump : Nat
deriving DecidableEq, Repr

/-- Source `lib.rs` `EmployeeEntry`. -/
structure EmployeeEntry where
  business_entry : Pubkey
  employee_index : Nat
  encrypted_employee_id : IncoHandle
  encrypted_salary : IncoHandle
  encrypted_accrued : IncoHandle
  last_action : Int
  is_active : Bool
  bump : Nat
deriving DecidableEq, Repr

/-- Source `lib.rs` seed constant `EMPLOYEE_ENTRY_SEED = b"employee"` (ASCII). -/
def EMPLOYEE_ENTRY_SEED : List Nat := [101, 109, 112, 108, 111, 121, 101, 101]

/-- The PDA seed tuple of an `EmployeeEntry`, from the `AddEmployee` account
constraint: `["employee", business_entry.key(), employee_index.to_le_bytes()]`. -/
def deriveEmployeeSeeds (businessEntryKey : Pubkey) (index : Nat) :
    List (List Nat) :=
  [EMPLOYEE_ENTRY_SEED, businessEntryKey, toLeBytes8 index]

/-- Modelled from the spec: the address derived from a PDA seed tuple.
`find_program_address` (external Solana SDK) is per spec §4.2 a pure,
deterministic, collision-free function of the seeds, so the model represents
the derived address by the seed tuple itself; distinctness of addresses then
coincides with distinctness of seed tuples, which is what the theorems
establish. -/
def deriveAddress (seeds : List (List Nat)) : List (List Nat) := seeds

/-- The address of the employee entry for `(business, index)`. -/
def deriveEmployeeAddress (businessEntryKey : Pubkey) (index : Nat) :
    List (List Nat) :=
  deriveAddress (deriveEmployeeSeeds businessEntryKey index)

/-- Source `lib.rs` `add_employee` (lines 344–460).  Requires non-empty ciphertexts,
issues `employee_index = business.next_employee_index`, bumps the counter by
one (`+=`, aborting on `u64` overflow), stores the encrypted fields via Inco
CPIs and increments both encrypted employee counts. -/
def addEmployee (vault : MasterVault) (business : BusinessEntry)
    (businessKey : Pubkey) (encrypted_employee_id encrypted_salary : List Nat)
    (now : Int) (bump : Nat) :
    Except VaultErr (MasterVault × BusinessEntry × EmployeeEntry) :=
  if encrypted_employee_id = [] then .error (.bagel .InvalidCiphertext)
  else if encrypted_salary = [] then .error (.bagel .InvalidCiphertext)
  else if 2 ^ 64 ≤ business.next_employee_index + 1 then .error .panicked
  else
    let employee_index := business.next_employee_index
    let zero_ciphertext : List Nat := List.replicate 16 0
    let one_ciphertext : List Nat :=
      [1, 0, 0, 0, 0, 0, 0, 0, 0, 0, 0, 0, 0, 0, 0, 0]
    let employee : EmployeeEntry :=
      { business_entry := businessKey
        employee_index := employee_index
        encrypted_employee_id := new_euint128 encrypted_employee_id
        encrypted_salary := new_euint128 encrypted_salary
        encrypted_accrued := new_euint128 zero_ciphertext
        last_action := now
        is_active := true
        bump := bump }
    let business' :=
      { business with
        next_employee_index := employee_index + 1
        encrypted_employee_count :=
          e_add business.encrypted_employee_count
            (new_euint128 one_ciphertext) }
    let vault' :=
      { vault with
        encrypted_employee_count :=
          e_add vault.encrypted_employee_count
            (new_euint128 one_ciphertext) }
    .ok (vault', business', employee)

/-- Source `lib.rs` `request_withdrawal` (lines 466–592).  `withdrawer` is the
transaction signer; `vaultLamports` and `minLamports` are the vault account's
lamports and its rent-exempt minimum (`Rent::minimum_balance`, external).
`tokenAccountsPresent` / `incoTokenProgramPresent` model the optional
confidential-token accounts.  The confidential transfer CPI and the SOL
lamport movement are out-of-scope external collaborators. -/
def requestWithdrawal (now : Int) (vault : MasterVault)
    (employee : EmployeeEntry) (withdrawer : Pubkey) (amount : Nat)
    (encrypted_amount : List Nat) (use_shadowwire : Bool)
    (vaultLamports minLamports : Nat)
    (tokenAccountsPresent incoTokenProgramPresent : Bool) :
    Except VaultErr (MasterVault × EmployeeEntry) :=
  if amount = 0 then .error (.bagel .NoAccruedDough)
  else if employee.is_active = false then .error (.bagel .PayrollInactive)
  else
    match checkedSubI64 now employee.last_action with
    | none => .error (.bagel .InvalidTimestamp)
    | some time_elapsed =>
      if time_elapsed < MIN_WITHDRAW_INTERVAL then
        .error (.bagel .WithdrawTooSoon)
      else if vault.total_balance < amount then
        .error (.bagel .InsufficientFunds)
      else if vaultLamports - amount < minLamports then
        -- `vault_lamports.saturating_sub(amount) >= min_lamports` or fail
        .error (.bagel .InsufficientFunds)
      else
        -- shared tail of the handler: update the encrypted accrued
        -- balance via Inco CPIs and stamp `last_action = now`
        let encrypted_withdrawal := new_euint128 encrypted_amount
        let employee' :=
          { employee with
            encrypted_accrued :=
              e_sub employee.encrypted_accrued encrypted_withdrawal
            last_action := now }
        if vault.use_confidential_tokens &&
            decide (vault.confidential_mint ≠ defaultPubkey) then
          if tokenAccountsPresent = false then
            .error (.bagel .InvalidState)
          else if incoTokenProgramPresent = false then
            .error (.bagel .InvalidState)
          else
            -- confidential `transfer` CPI: external collaborator;
            -- this branch does not touch `total_balance`
            .ok (vault, employee')
        else
          match checkedSubU64 vault.total_balance amount with
          | none => .error (.bagel .Underflow)
          | some newBalance =>
            -- SOL `sub_lamports`/`add_lamports`: external collaborator
            .ok ({ vault with total_balance := newBalance }, employee')

/-- One `add_employee` call's instruction inputs. -/
structure AddEmployeeInput where
  encrypted_employee_id : List Nat
  encrypted_salary : List Nat
  now : Int
  bump : Nat
deriving DecidableEq, Repr

/-- Run a sequence of `add_employee` calls against one business, collecting
the `employee_index` issued by each successful call (a failed call aborts its
transaction and leaves the business unchanged). -/
def runAddEmployees (vault : MasterVault) (business : BusinessEntry)
    (businessKey : Pubkey) : List AddEmployeeInput → List Nat
  | [] => []
  | inp :: rest =>
    match addEmployee vault business businessKey inp.encrypted_employee_id
        inp.encrypted_salary inp.now inp.bump with
    | .ok (vault', business', employee) =>
      employee.employee_index :: runAddEmployees vault' business' businessKey rest
    | .error _ => runAddEmployees vault business businessKey rest

/-! ## Claim theorems -/

/-- C1: for every `rate` and `elapsed` in `u64` range whose product does not
overflow `u64`, encrypting the rate, computing the accrual via
`calculate_accrued` (scalar multiplication of the encrypted rate by
`elapsed`), and decrypting the result yields exactly `rate * elapsed`, with
no rounding. -/
theorem claim_C1_accrual_exact (rate elapsed : Nat) (h1 : rate < 2 ^ 64)
    (h2 : elapsed < 2 ^ 64) (h3 : rate * elapsed < 2 ^ 64) :
    (calculate_accrued (encrypt_salary rate) elapsed).bind decrypt_for_transfer
      = .ok (rate * elapsed) := by
  unfold calculate_accrued encrypt_salary EncryptedU64.multiply_by_scalar
  rw [EncryptedU64.decrypt_new_eq rate h1]
  simp only [h3, if_true, if_pos]
  show Except.bind (Except.ok (EncryptedU64.new (rate * elapsed)))
      decrypt_for_transfer = .ok (rate * elapsed)
  unfold decrypt_for_transfer
  simp [Except.bind, EncryptedU64.decrypt_new_eq _ h3]

/-- Witness for C1 at the spec scenario: rate 1,000,000 units/sec and
elapsed 3,600 sec give exactly 3,600,000,000 units. -/
theorem claim_C1_accrual_exact_witness :
    (calculate_accrued (encrypt_salary 1000000) 3600).bind decrypt_for_transfer
      = .ok 3600000000 := by
  have := claim_C1_accrual_exact 1000000 3600 (by norm_num) (by norm_num)
    (by norm_num)
  simpa using this

/-- C2: for a `u64` plaintext `p` and scalar `s`, both
`EncryptedU64::multiply_by_scalar` and the Inco
`ConfidentialBalance::multiply_scalar` fail with their arithmetic-overflow
error exactly when `p * s` overflows `u64`, and succeed with the encrypted
product otherwise. -/
theorem claim_C2_scalar_multiply_overflow (p s : Nat) (hp : p < 2 ^ 64)
    (hs : s < 2 ^ 64) :
    ((EncryptedU64.new p).multiply_by_scalar s
        = .error ErrorCode.ArithmeticOverflow ↔ 2 ^ 64 ≤ p * s)
    ∧ ((ConfidentialBalance.new p).multiply_scalar s
        = .error IncoError.Overflow ↔ 2 ^ 64 ≤ p * s)
    ∧ (p * s < 2 ^ 64 →
        (EncryptedU64.new p).multiply_by_scalar s = .ok (.new (p * s))
        ∧ (ConfidentialBalance.new p).multiply_scalar s = .ok (.new (p * s))) := by
  unfold EncryptedU64.multiply_by_scalar ConfidentialBalance.multiply_scalar
  rw [EncryptedU64.decrypt_new_eq p hp, ConfidentialBalance.decrypt_new_eqcb p hp]
  by_cases hov : p * s < 2 ^ 64 <;> simp [hov]

/-- Witness for C2 at the spec scenario: plaintext `u64::MAX / 2` and scalar
10 overflow, so both operations fail with their overflow error. -/
theorem claim_C2_scalar_multiply_overflow_witness :
    (EncryptedU64.new 9223372036854775807).multiply_by_scalar 10
      = .error ErrorCode.ArithmeticOverflow
    ∧ (ConfidentialBalance.new 9223372036854775807).multiply_scalar 10
      = .error IncoError.Overflow := by
  have h := claim_C2_scalar_multiply_overflow 9223372036854775807 10
    (by norm_num) (by norm_num)
  exact ⟨h.1.mpr (by norm_num), h.2.1.mpr (by norm_num)⟩

/-- Counterexample to C3: a delivered result whose signature does not verify
(`sigValid = false`) but whose payload decodes to a plausible value (100) is
rejected with `ComputationFailed` — the very error the claim says is reserved
for cluster-reported failures.  The program defines no
`SignatureVerificationFailed` error at all. -/
theorem claim_C3_counterexample :
    finalizeGetDoughFromMpcCallback 1000
      { employer := defaultPubkey
        employee := defaultPubkey
        encrypted_salary_per_second := toLeBytes8 1000000
        last_withdraw := 0
        total_accrued := 5000000000
        dough_vault := defaultPubkey
        bump := 0
        is_active := true }
      { bytes := toLeBytes8 100 ++ List.replicate 24 0
        sigValid := false
        clusterSuccess := true } true
      = .error (.bagel .ComputationFailed) := by
  decide

/-- C3 (amended): a delivered result whose signature does not verify is
always rejected, but the surfaced error is `ComputationFailed`; the code has
no `SignatureVerificationFailed` variant and does not distinguish signature
failure from a cluster-reported computation failure. -/
theorem claim_C3_sig_failure_rejected (t : Int) (jar : PayrollJar)
    (output : SignedComputationOutputs) (magicOk : Bool)
    (h : output.sigValid = false) :
    finalizeGetDoughFromMpcCallback t jar output magicOk
      = .error (.bagel .ComputationFailed) := by
  unfold finalizeGetDoughFromMpcCallback SignedComputationOutputs.verify_output
  simp [h]

/-- Witness for C3 (amended) at a concrete invalid-signature delivery. -/
theorem claim_C3_sig_failure_rejected_witness :
    finalizeGetDoughFromMpcCallback 500
      { employer := defaultPubkey
        employee := defaultPubkey
        encrypted_salary_per_second := toLeBytes8 42
        last_withdraw := 3
        total_accrued := 77
        dough_vault := defaultPubkey
        bump := 9
        is_active := true }
      { bytes := toLeBytes8 7 ++ List.replicate 24 0
        sigValid := false
        clusterSuccess := false } false
      = .error (.bagel .ComputationFailed) :=
  claim_C3_sig_failure_rejected 500 _ _ false rfl

/-- Counterexample to C4: at `t = i64::MIN` with `last_withdraw = 1` the
difference `t - last_withdraw` underflows `i64`, so the withdrawal fails with
`InvalidTimestamp`, not `WithdrawTooSoon`, although `t - last_withdraw < 60`. -/
theorem claim_C4_counterexample :
    getDough (-(2 ^ 63))
      { employer := defaultPubkey
        employee := defaultPubkey
        encrypted_salary_per_second := toLeBytes8 5
        last_withdraw := 1
        total_accrued := 1000
        dough_vault := defaultPubkey
        bump := 0
        is_active := true }
      = .error (.bagel .InvalidTimestamp) ∧
    getDough (-(2 ^ 63))
      { employer := defaultPubkey
        employee := defaultPubkey
        encrypted_salary_per_second := toLeBytes8 5
        last_withdraw := 1
        total_accrued := 1000
        dough_vault := defaultPubkey
        bump := 0
        is_active := true }
      ≠ .error (.bagel .WithdrawTooSoon) := by
  constructor <;> decide

/-- C4 (amended): whenever the difference `t - last_withdraw` is
representable in `i64` and below `MIN_WITHDRAW_INTERVAL`, the withdrawal
fails with `WithdrawTooSoon` (the state is unchanged: the transaction
aborts); when it is at least the interval and the jar holds a well-formed
encrypted rate whose accrual `rate * elapsed` fits `u64`, is positive and is
covered by `total_accrued`, the withdrawal succeeds.  (When the `i64`
subtraction overflows, the failure is `InvalidTimestamp` instead —
the counterexample.) -/
theorem claim_C4_pacing_window (t : Int) (jar : PayrollJar) :
    (i64Min ≤ t - jar.last_withdraw → t - jar.last_withdraw < 60 →
      getDough t jar = .error (.bagel .WithdrawTooSoon))
    ∧ (∀ rate : Nat, jar.encrypted_salary_per_second = toLeBytes8 rate →
        rate < 2 ^ 64 →
        60 ≤ t - jar.last_withdraw → t - jar.last_withdraw ≤ i64Max →
        rate * (t - jar.last_withdraw).toNat < 2 ^ 64 →
        0 < rate * (t - jar.last_withdraw).toNat →
        rate * (t - jar.last_withdraw).toNat ≤ jar.total_accrued →
        getDough t jar =
          .ok ({ jar with
                 total_accrued :=
                   jar.total_accrued - rate * (t - jar.last_withdraw).toNat
                 last_withdraw := t },
               rate * (t - jar.last_withdraw).toNat)) := by
  constructor
  · intro hlo hlt
    have hsub : checkedSubI64 t jar.last_withdraw
        = some (t - jar.last_withdraw) := by
      unfold checkedSubI64 i64Min i64Max at *
      rw [if_pos ⟨hlo, by omega⟩]
    have hlt' : t - jar.last_withdraw < MIN_WITHDRAW_INTERVAL := hlt
    unfold getDough
    simp only [hsub]
    rw [if_pos hlt']
  · intro rate hct hrate hge hle hfit hpos hcov
    have hsub : checkedSubI64 t jar.last_withdraw
        = some (t - jar.last_withdraw) := by
      unfold checkedSubI64 i64Min i64Max at *
      rw [if_pos ⟨by omega, hle⟩]
    have hnlt : ¬ (t - jar.last_withdraw < MIN_WITHDRAW_INTERVAL) := by
      unfold MIN_WITHDRAW_INTERVAL
      omega
    have hcast : i64ToU64 (t - jar.last_withdraw)
        = (t - jar.last_withdraw).toNat :=
      i64ToU64_of_nonneg _ (by omega) hle
    have hca : calculate_accrued ⟨jar.encrypted_salary_per_second⟩
        ((t - jar.last_withdraw).toNat)
        = .ok (EncryptedU64.new (rate * (t - jar.last_withdraw).toNat)) := by
      rw [hct]
      show EncryptedU64.multiply_by_scalar (EncryptedU64.new rate) _ = _
      unfold EncryptedU64.multiply_by_scalar
      simp only [EncryptedU64.decrypt_new_eq rate hrate]
      rw [if_pos hfit]
    have hdec : decrypt_for_transfer
        (EncryptedU64.new (rate * (t - jar.last_withdraw).toNat))
        = .ok (rate * (t - jar.last_withdraw).toNat) :=
      EncryptedU64.decrypt_new_eq _ hfit
    have hnz : ¬ (rate * (t - jar.last_withdraw).toNat = 0) := by omega
    have hnlt2 : ¬ (jar.total_accrued < rate * (t - jar.last_withdraw).toNat) := by
      omega
    have hcsub : checkedSubU64 jar.total_accrued
        (rate * (t - jar.last_withdraw).toNat)
        = some (jar.total_accrued - rate * (t - jar.last_withdraw).toNat) := by
      unfold checkedSubU64
      rw [if_pos hcov]
    unfold getDough
    simp only [hsub, hcast, hca, hdec, hcsub]
    rw [if_neg hnlt, if_neg hnz, if_neg hnlt2]

/-- A concrete jar (rate 1,000,000 per second, accrual pool of
4,000,000,000) for the C4 witness. -/
def jarC4 : PayrollJar :=
  { employer := defaultPubkey
    employee := defaultPubkey
    encrypted_salary_per_second := toLeBytes8 1000000
    last_withdraw := 0
    total_accrued := 4000000000
    dough_vault := defaultPubkey
    bump := 0
    is_active := true }

/-- Witness for C4 (amended): a too-early withdrawal at `t = 30` fails with
`WithdrawTooSoon`; a withdrawal one hour after `last_withdraw = 0` at rate
1,000,000 with `total_accrued = 4,000,000,000` succeeds and pays out
3,600,000,000. -/
theorem claim_C4_pacing_window_witness :
    getDough 30 jarC4 = .error (.bagel .WithdrawTooSoon) ∧
    getDough 3600 jarC4
      = .ok ({ jarC4 with last_withdraw := 3600,
                           total_accrued := 400000000 }, 3600000000) := by
  constructor
  · exact (claim_C4_pacing_window 30 jarC4).1
      (by norm_num [i64Min, jarC4]) (by norm_num [jarC4])
  · have h := (claim_C4_pacing_window 3600 jarC4).2 1000000 rfl
      (by norm_num [jarC4]) (by norm_num [jarC4])
      (by norm_num [jarC4, i64Max]) (by decide) (by decide) (by decide)
    simpa [jarC4] using h

/-- C5: in both settlement paths (`get_dough` and the MPC callback), a
decrypted accrued amount exceeding the plaintext-tracked `total_accrued`
fails with `InsufficientFunds`; the error aborts the transaction, so the
ledger total is unchanged (the pre-state jar stays authoritative — the
handlers only produce a new jar on `ok`). -/
theorem claim_C5_settlement_insufficient_funds (t : Int) (jar : PayrollJar)
    (accrued : Nat) :
    (∀ e : Int, checkedSubI64 t jar.last_withdraw = some e →
      ¬ e < MIN_WITHDRAW_INTERVAL →
      (calculate_accrued ⟨jar.encrypted_salary_per_second⟩
          (i64ToU64 e)).bind decrypt_for_transfer = .ok accrued →
      jar.total_accrued < accrued →
      getDough t jar = .error (.bagel .InsufficientFunds))
    ∧ (∀ (output : SignedComputationOutputs)
        (decoded : QueueGetDoughMpcOutput) (magicOk : Bool),
        output.verify_output = some decoded →
        decrypt_for_transfer ⟨decoded.bytes⟩ = .ok accrued →
        jar.total_accrued < accrued →
        finalizeGetDoughFromMpcCallback t jar output magicOk
          = .error (.bagel .InsufficientFunds)) := by
  constructor
  · intro e hsub hnlt hchain hover
    have hnz : ¬ (accrued = 0) := by omega
    unfold getDough
    simp only [hsub]
    rw [if_neg hnlt]
    cases hca : calculate_accrued ⟨jar.encrypted_salary_per_second⟩
        (i64ToU64 e) with
    | error er => rw [hca] at hchain; cases hchain
    | ok enc =>
      rw [hca] at hchain
      have hdec : decrypt_for_transfer enc = .ok accrued := hchain
      simp only [hdec]
      rw [if_neg hnz, if_pos hover]
  · intro output decoded magicOk hver hdec hover
    have hnz : ¬ (accrued = 0) := by omega
    unfold finalizeGetDoughFromMpcCallback
    simp only [hver, hdec]
    rw [if_neg hnz, if_pos hover]

/-- A jar holding a deposit total of 1,000 with a rate of 20 per second,
for the C5 witness. -/
def jarC5 : PayrollJar :=
  { employer := defaultPubkey
    employee := defaultPubkey
    encrypted_salary_per_second := toLeBytes8 20
    last_withdraw := 0
    total_accrued := 1000
    dough_vault := defaultPubkey
    bump := 0
    is_active := true }

/-- Witness for C5 at the spec scenario: with a tracked total of 1,000,
settling an accrued 1,200 (rate 20 × 60 s in `get_dough`, and a delivered
ciphertext of 1,200 in the callback) fails with `InsufficientFunds`. -/
theorem claim_C5_settlement_insufficient_funds_witness :
    getDough 60 jarC5 = .error (.bagel .InsufficientFunds) ∧
    finalizeGetDoughFromMpcCallback 60 jarC5
      { bytes := toLeBytes8 1200 ++ List.replicate 24 0
        sigValid := true
        clusterSuccess := true } true
      = .error (.bagel .InsufficientFunds) := by
  constructor
  · exact (claim_C5_settlement_insufficient_funds 60 jarC5 1200).1 60
      (by decide) (by decide) (by decide) (by decide)
  · exact (claim_C5_settlement_insufficient_funds 60 jarC5 1200).2
      { bytes := toLeBytes8 1200 ++ List.replicate 24 0
        sigValid := true
        clusterSuccess := true }
      ⟨toLeBytes8 1200 ++ List.replicate 24 0⟩ true
      (by decide) (by decide) (by decide)

/-- C6 (the claim is right, the code is wrong): `request_withdrawal` never
verifies the claimed signer against the stored `encrypted_employee_id` —
no code path can surface `IdentityVerificationFailed` (the error is declared
in `lib.rs` but never raised, and the handler's own doc comment says the
program "verifies against encrypted_employee_id").  The second conjunct
evaluates the handler at a concrete request whose signer (32 bytes of `1`)
differs from the recorded identity (an encryption of 32 bytes of `9`): the
withdrawal succeeds. -/
theorem claim_C6_no_identity_verification :
    (∀ (now : Int) (vault : MasterVault) (employee : EmployeeEntry)
       (withdrawer : Pubkey) (amount : Nat) (enc : List Nat) (sw : Bool)
       (vl ml : Nat) (ta itp : Bool),
       requestWithdrawal now vault employee withdrawer amount enc sw vl ml
           ta itp
         ≠ .error (.bagel .IdentityVerificationFailed))
    ∧ requestWithdrawal 100
        { authority := defaultPubkey
          total_balance := 1000000000
          encrypted_business_count := .enc [0]
          encrypted_employee_count := .enc [0]
          next_business_index := 1
          is_active := true
          bump := 1
          confidential_mint := defaultPubkey
          use_confidential_tokens := false }
        { business_entry := defaultPubkey
          employee_index := 0
          encrypted_employee_id := .enc (List.replicate 32 9)
          encrypted_salary := .enc (toLeBytes8 100)
          encrypted_accrued := .enc (toLeBytes8 500)
          last_action := 0
          is_active := true
          bump := 2 }
        (List.replicate 32 1) 50 (toLeBytes8 50) false
        1000000000 1000000 true true
      = .ok
        ({ authority := defaultPubkey
           total_balance := 999999950
           encrypted_business_count := .enc [0]
           encrypted_employee_count := .enc [0]
           next_business_index := 1
           is_active := true
           bump := 1
           confidential_mint := defaultPubkey
           use_confidential_tokens := false },
         { business_entry := defaultPubkey
           employee_index := 0
           encrypted_employee_id := .enc (List.replicate 32 9)
           encrypted_salary := .enc (toLeBytes8 100)
           encrypted_accrued := .sub (.enc (toLeBytes8 500))
             (.enc (toLeBytes8 50))
           last_action := 100
           is_active := true
           bump := 2 }) := by
  constructor
  · intro now vault employee withdrawer amount enc sw vl ml ta itp
    unfold requestWithdrawal
    repeat' split
    all_goals simp
  · decide

/-- A jar whose `last_withdraw` (100) lies after the current time (0), for
the C7 counterexample. -/
def jarC7 : PayrollJar :=
  { employer := defaultPubkey
    employee := defaultPubkey
    encrypted_salary_per_second := toLeBytes8 5
    last_withdraw := 100
    total_accrued := 1000
    dough_vault := defaultPubkey
    bump := 0
    is_active := true }

/-- Counterexample to C7: with the clock at 0 but `last_withdraw = 100`
(elapsed −100, a clock regression), `get_dough` fails with
`WithdrawTooSoon`, not `InvalidTimestamp`: the `i64` `checked_sub` only
fails on overflow, and a representable negative difference merely fails the
pacing comparison. -/
theorem claim_C7_counterexample :
    getDough 0 jarC7 = .error (.bagel .WithdrawTooSoon) ∧
    getDough 0 jarC7 ≠ .error (.bagel .InvalidTimestamp) := by
  constructor <;> decide

/-- C7 (amended): a clock regression (current time before the stored
timestamp, difference still representable in `i64`) makes both `get_dough`
and `request_withdrawal` fail with `WithdrawTooSoon`; `InvalidTimestamp` is
surfaced only when the `i64` subtraction itself overflows. -/
theorem claim_C7_clock_regression (t : Int) (jar : PayrollJar) (now : Int)
    (vault : MasterVault) (employee : EmployeeEntry) (w : Pubkey)
    (amount : Nat) (enc : List Nat) (sw : Bool) (vl ml : Nat) (ta itp : Bool) :
    (t - jar.last_withdraw < 0 → i64Min ≤ t - jar.last_withdraw →
      getDough t jar = .error (.bagel .WithdrawTooSoon))
    ∧ (t - jar.last_withdraw < i64Min →
      getDough t jar = .error (.bagel .InvalidTimestamp))
    ∧ (amount ≠ 0 → employee.is_active = true →
      now - employee.last_action < 0 → i64Min ≤ now - employee.last_action →
      requestWithdrawal now vault employee w amount enc sw vl ml ta itp
        = .error (.bagel .WithdrawTooSoon)) := by
  refine ⟨?_, ?_, ?_⟩
  · intro hneg hlo
    have hsub : checkedSubI64 t jar.last_withdraw
        = some (t - jar.last_withdraw) := by
      unfold checkedSubI64 i64Min i64Max at *
      rw [if_pos ⟨hlo, by omega⟩]
    have hlt : t - jar.last_withdraw < MIN_WITHDRAW_INTERVAL := by
      unfold MIN_WITHDRAW_INTERVAL
      omega
    unfold getDough
    simp only [hsub]
    rw [if_pos hlt]
  · intro hover
    have hsub : checkedSubI64 t jar.last_withdraw = none := by
      unfold checkedSubI64 i64Min i64Max at *
      rw [if_neg]
      omega
    unfold getDough
    simp only [hsub]
  · intro hamt hact hneg hlo
    have hsub : checkedSubI64 now employee.last_action
        = some (now - employee.last_action) := by
      unfold checkedSubI64 i64Min i64Max at *
      rw [if_pos ⟨hlo, by omega⟩]
    have hlt : now - employee.last_action < MIN_WITHDRAW_INTERVAL := by
      unfold MIN_WITHDRAW_INTERVAL
      omega
    unfold requestWithdrawal
    rw [if_neg hamt, if_neg (by simp [hact])]
    simp only [hsub]
    rw [if_pos hlt]

/-- A vault and an employee entry with `last_action = 100`, for the C7
witness. -/
def vaultC7 : MasterVault :=
  { authority := defaultPubkey
    total_balance := 1000000
    encrypted_business_count := .enc [0]
    encrypted_employee_count := .enc [0]
    next_business_index := 1
    is_active := true
    bump := 1
    confidential_mint := defaultPubkey
    use_confidential_tokens := false }

/-- Employee entry for the C7 witness. -/
def empC7 : EmployeeEntry :=
  { business_entry := defaultPubkey
    employee_index := 0
    encrypted_employee_id := .enc (List.replicate 32 9)
    encrypted_salary := .enc (toLeBytes8 100)
    encrypted_accrued := .enc (toLeBytes8 500)
    last_action := 100
    is_active := true
    bump := 2 }

/-- Witness for C7 (amended): concrete clock regressions in each handler,
plus a concrete `i64` underflow that yields `InvalidTimestamp`. -/
theorem claim_C7_clock_regression_witness :
    getDough 40 jarC7 = .error (.bagel .WithdrawTooSoon) ∧
    getDough (-(2 ^ 63)) jarC7 = .error (.bagel .InvalidTimestamp) ∧
    requestWithdrawal 10 vaultC7 empC7 defaultPubkey 5 (toLeBytes8 5) false
        1000000 100 true true
      = .error (.bagel .WithdrawTooSoon) := by
  have h := claim_C7_clock_regression 40 jarC7 10 vaultC7 empC7 defaultPubkey
    5 (toLeBytes8 5) false 1000000 100 true true
  have h2 := claim_C7_clock_regression (-(2 ^ 63)) jarC7 10 vaultC7 empC7
    defaultPubkey 5 (toLeBytes8 5) false 1000000 100 true true
  exact ⟨h.1 (by norm_num [jarC7]) (by norm_num [jarC7, i64Min]),
    h2.2.1 (by norm_num [jarC7, i64Min]),
    h.2.2 (by norm_num) (by norm_num [empC7])
      (by norm_num [empC7]) (by norm_num [empC7, i64Min])⟩

theorem addEmployee_ok_shape (vault : MasterVault) (business : BusinessEntry)
    (bkey : Pubkey) (eid esal : List Nat) (now : Int) (bump : Nat)
    (v' : MasterVault) (b' : BusinessEntry) (emp : EmployeeEntry)
    (h : addEmployee vault business bkey eid esal now bump
      = .ok (v', b', emp)) :
    emp.employee_index = business.next_employee_index ∧
    b'.next_employee_index = business.next_employee_index + 1 := by
  unfold addEmployee at h
  split at h
  · cases h
  · split at h
    · cases h
    · split at h
      · cases h
      · simp only [Except.ok.injEq, Prod.mk.injEq] at h
        obtain ⟨-, hb, he⟩ := h
        constructor
        · rw [← he]
        · rw [← hb]

theorem runAddEmployees_lower_bound (bkey : Pubkey) :
    ∀ (inputs : List AddEmployeeInput) (vault : MasterVault)
      (business : BusinessEntry) (x : Nat),
      x ∈ runAddEmployees vault business bkey inputs →
      business.next_employee_index ≤ x := by
  intro inputs
  induction inputs with
  | nil => intro vault business x hx; simp [runAddEmployees] at hx
  | cons inp rest ih =>
    intro vault business x hx
    unfold runAddEmployees at hx
    cases haE : addEmployee vault business bkey inp.encrypted_employee_id
        inp.encrypted_salary inp.now inp.bump with
    | ok out =>
      obtain ⟨v', b', emp⟩ := out
      rw [haE] at hx
      obtain ⟨hidx, hnext⟩ := addEmployee_ok_shape vault business bkey
        inp.encrypted_employee_id inp.encrypted_salary inp.now inp.bump
        v' b' emp haE
      rcases List.mem_cons.mp hx with hx | hx
      · omega
      · have := ih v' b' x hx
        omega
    | error er =>
      rw [haE] at hx
      exact ih vault business x hx

theorem runAddEmployees_pairwise_lt (bkey : Pubkey) :
    ∀ (inputs : List AddEmployeeInput) (vault : MasterVault)
      (business : BusinessEntry),
      (runAddEmployees vault business bkey inputs).Pairwise (· < ·) := by
  intro inputs
  induction inputs with
  | nil => intro vault business; simp [runAddEmployees]
  | cons inp rest ih =>
    intro vault business
    unfold runAddEmployees
    cases haE : addEmployee vault business bkey inp.encrypted_employee_id
        inp.encrypted_salary inp.now inp.bump with
    | ok out =>
      obtain ⟨v', b', emp⟩ := out
      obtain ⟨hidx, hnext⟩ := addEmployee_ok_shape vault business bkey
        inp.encrypted_employee_id inp.encrypted_salary inp.now inp.bump
        v' b' emp haE
      refine List.Pairwise.cons ?_ (ih v' b')
      intro y hy
      have := runAddEmployees_lower_bound bkey rest v' b' y hy
      omega
    | error er => exact ih vault business

theorem toLeBytes8_inj (i j : Nat) (hi : i < 2 ^ 64) (hj : j < 2 ^ 64)
    (h : toLeBytes8 i = toLeBytes8 j) : i = j := by
  calc i = fromLeBytes8 (toLeBytes8 i) := (fromLeBytes8_toLeBytes8 i hi).symm
    _ = fromLeBytes8 (toLeBytes8 j) := by rw [h]
    _ = j := fromLeBytes8_toLeBytes8 j hj

/-- C8: every successful `add_employee` issues
`employee_index = next_employee_index` and bumps the counter by exactly one;
over any sequence of `add_employee` calls under one business the issued
indices are strictly increasing (hence never reused); and the employee-entry
addresses for two distinct indices below `2^64` under the same business are
distinct (and stable: `deriveEmployeeAddress` is a function of
`(business, index)` alone). -/
theorem claim_C8_employee_indexing :
    (∀ (vault : MasterVault) (business : BusinessEntry) (bkey : Pubkey)
       (eid esal : List Nat) (now : Int) (bump : Nat)
       (v' : MasterVault) (b' : BusinessEntry) (emp : EmployeeEntry),
       addEmployee vault business bkey eid esal now bump = .ok (v', b', emp) →
       emp.employee_index = business.next_employee_index ∧
       b'.next_employee_index = business.next_employee_index + 1)
    ∧ (∀ (vault : MasterVault) (business : BusinessEntry) (bkey : Pubkey)
        (inputs : List AddEmployeeInput),
        (runAddEmployees vault business bkey inputs).Pairwise (· < ·))
    ∧ (∀ (bkey : Pubkey) (i j : Nat), i < 2 ^ 64 → j < 2 ^ 64 → i ≠ j →
        deriveEmployeeAddress bkey i ≠ deriveEmployeeAddress bkey j) := by
  refine ⟨?_, ?_, ?_⟩
  · intro vault business bkey eid esal now bump v' b' emp h
    exact addEmployee_ok_shape vault business bkey eid esal now bump
      v' b' emp h
  · intro vault business bkey inputs
    exact runAddEmployees_pairwise_lt bkey inputs vault business
  · intro bkey i j hi hj hne habs
    unfold deriveEmployeeAddress deriveAddress deriveEmployeeSeeds at habs
    have h3 : toLeBytes8 i = toLeBytes8 j := by
      have := congrArg (fun l => l.getD 2 []) habs
      simpa using this
    exact hne (toLeBytes8_inj i j hi hj h3)

/-- Business-entry key for the C8 witness. -/
def bkeyW : Pubkey := List.replicate 32 7

/-- Master vault for the C8 witness. -/
def vaultW : MasterVault :=
  { authority := defaultPubkey
    total_balance := 0
    encrypted_business_count := .enc [0]
    encrypted_employee_count := .enc [0]
    next_business_index := 1
    is_active := true
    bump := 1
    confidential_mint := defaultPubkey
    use_confidential_tokens := false }

/-- Business entry (fresh, `next_employee_index = 0`) for the C8 witness. -/
def busW : BusinessEntry :=
  { master_vault := defaultPubkey
    entry_index := 0
    encrypted_employer_id := .enc (List.replicate 32 9)
    encrypted_balance := .enc [0]
    encrypted_employee_count := .enc [0]
    next_employee_index := 0
    is_active := true
    bump := 2 }

/-- Result vault of the witness `add_employee` call. -/
def vaultWr : MasterVault :=
  { vaultW with
    encrypted_employee_count :=
      .add vaultW.encrypted_employee_count
        (.enc [1, 0, 0, 0, 0, 0, 0, 0, 0, 0, 0, 0, 0, 0, 0, 0]) }

/-- Result business of the witness `add_employee` call. -/
def busWr : BusinessEntry :=
  { busW with
    next_employee_index := 1
    encrypted_employee_count :=
      .add busW.encrypted_employee_count
        (.enc [1, 0, 0, 0, 0, 0, 0, 0, 0, 0, 0, 0, 0, 0, 0, 0]) }

/-- Result employee of the witness `add_employee` call. -/
def empWr : EmployeeEntry :=
  { business_entry := bkeyW
    employee_index := 0
    encrypted_employee_id := .enc [1]
    encrypted_salary := .enc [2]
    encrypted_accrued := .enc (List.replicate 16 0)
    last_action := 0
    is_active := true
    bump := 255 }

/-- Witness for C8: a concrete `add_employee` under a fresh business issues
index 0 and bumps the counter to 1; two consecutive calls issue strictly
increasing indices; and indices 0 and 1 derive distinct addresses. -/
theorem claim_C8_employee_indexing_witness :
    empWr.employee_index = busW.next_employee_index ∧
    busWr.next_employee_index = busW.next_employee_index + 1 ∧
    (runAddEmployees vaultW busW bkeyW
      [⟨[1], [2], 0, 255⟩, ⟨[3], [4], 5, 254⟩]).Pairwise (· < ·) ∧
    deriveEmployeeAddress bkeyW 0 ≠ deriveEmployeeAddress bkeyW 1 := by
  have h := claim_C8_employee_indexing
  have hok := h.1 vaultW busW bkeyW [1] [2] 0 255 vaultWr busWr empWr
    (by decide)
  exact ⟨hok.1, hok.2,
    h.2.1 vaultW busW bkeyW [⟨[1], [2], 0, 255⟩, ⟨[3], [4], 5, 254⟩],
    h.2.2 bkeyW 0 1 (by norm_num) (by norm_num) (by norm_num)⟩

/-- C9: both `bake_payroll` and `update_salary` reject a requested
`salary_per_second` strictly above `MAX_SALARY_PER_SECOND` (50,000,000
lamports per second) with `SalaryTooHigh`, and accept every value at or
below the cap. -/
theorem claim_C9_salary_cap (s : Nat) (jar : PayrollJar)
    (employer employee : Pubkey) (now : Int) (bump : Nat) :
    MAX_SALARY_PER_SECOND = 50000000
    ∧ (MAX_SALARY_PER_SECOND < s →
        bakePayroll employer employee s now bump = .error .SalaryTooHigh
        ∧ updateSalary jar s = .error .SalaryTooHigh)
    ∧ (s ≤ MAX_SALARY_PER_SECOND →
        bakePayroll employer employee s now bump
          = .ok { employer := employer
                  employee := employee
                  encrypted_salary_per_second := toLeBytes8 s
                  last_withdraw := now
                  total_accrued := 0
                  dough_vault := defaultPubkey
                  bump := bump
                  is_active := true }
        ∧ updateSalary jar s
          = .ok { jar with encrypted_salary_per_second := toLeBytes8 s }) := by
  refine ⟨rfl, ?_, ?_⟩
  · intro hgt
    unfold bakePayroll updateSalary
    rw [if_pos hgt, if_pos hgt]
    exact ⟨rfl, rfl⟩
  · intro hle
    unfold bakePayroll updateSalary
    rw [if_neg (by omega), if_neg (by omega)]
    exact ⟨rfl, rfl⟩

/-- Witness for C9: 50,000,001 is rejected by both handlers; 50,000,000 is
accepted by both. -/
theorem claim_C9_salary_cap_witness :
    bakePayroll defaultPubkey defaultPubkey 50000001 0 3
      = .error .SalaryTooHigh
    ∧ updateSalary jarC4 50000001 = .error .SalaryTooHigh
    ∧ updateSalary jarC4 50000000
      = .ok { jarC4 with encrypted_salary_per_second := toLeBytes8 50000000 } := by
  have h1 := (claim_C9_salary_cap 50000001 jarC4 defaultPubkey defaultPubkey
    0 3).2.1 (by norm_num [MAX_SALARY_PER_SECOND])
  have h2 := (claim_C9_salary_cap 50000000 jarC4 defaultPubkey defaultPubkey
    0 3).2.2 (by norm_num [MAX_SALARY_PER_SECOND])
  exact ⟨h1.1, h1.2, h2.2⟩

/-- C10: in `request_withdrawal`, once the anti-spam and activity guards
pass, the request fails with `InsufficientFunds` both when the amount
exceeds the vault's tracked `total_balance` and when deducting the amount
would leave the vault account's lamports below its rent-exempt minimum —
even though the amount is covered by `total_balance`. -/
theorem claim_C10_rent_exempt_floor (now : Int) (vault : MasterVault)
    (employee : EmployeeEntry) (w : Pubkey) (amount : Nat) (enc : List Nat)
    (sw : Bool) (vl ml : Nat) (ta itp : Bool)
    (hamt : amount ≠ 0) (hact : employee.is_active = true)
    (e : Int) (hsub : checkedSubI64 now employee.last_action = some e)
    (hge : ¬ e < MIN_WITHDRAW_INTERVAL) :
    (vault.total_balance < amount →
      requestWithdrawal now vault employee w amount enc sw vl ml ta itp
        = .error (.bagel .InsufficientFunds))
    ∧ (amount ≤ vault.total_balance → vl - amount < ml →
      requestWithdrawal now vault employee w amount enc sw vl ml ta itp
        = .error (.bagel .InsufficientFunds)) := by
  constructor
  · intro hbal
    unfold requestWithdrawal
    rw [if_neg hamt, if_neg (by simp [hact])]
    simp only [hsub]
    rw [if_neg hge, if_pos hbal]
  · intro hcov hrent
    unfold requestWithdrawal
    rw [if_neg hamt, if_neg (by simp [hact])]
    simp only [hsub]
    rw [if_neg hge, if_neg (by omega), if_pos hrent]

/-- Vault for the C10 witness: `total_balance` 1,000,000,000 but only
500,000,100 lamports on the account. -/
def vaultC10 : MasterVault :=
  { authority := defaultPubkey
    total_balance := 1000000000
    encrypted_business_count := .enc [0]
    encrypted_employee_count := .enc [0]
    next_business_index := 1
    is_active := true
    bump := 1
    confidential_mint := defaultPubkey
    use_confidential_tokens := false }

/-- Employee entry for the C10 witness. -/
def empC10 : EmployeeEntry :=
  { business_entry := defaultPubkey
    employee_index := 0
    encrypted_employee_id := .enc (List.replicate 32 9)
    encrypted_salary := .enc (toLeBytes8 100)
    encrypted_accrued := .enc (toLeBytes8 500)
    last_action := 0
    is_active := true
    bump := 2 }

/-- Witness for C10: withdrawing 2,000,000,000 exceeds `total_balance`; and
withdrawing 500,000,000 is covered by `total_balance` (1,000,000,000) yet
would leave the vault account with 100 lamports, below its rent-exempt
minimum of 1,000,000 — both fail with `InsufficientFunds`. -/
theorem claim_C10_rent_exempt_floor_witness :
    requestWithdrawal 100 vaultC10 empC10 defaultPubkey 2000000000
        (toLeBytes8 2000000000) false 500000100 1000000 true true
      = .error (.bagel .InsufficientFunds)
    ∧ requestWithdrawal 100 vaultC10 empC10 defaultPubkey 500000000
        (toLeBytes8 500000000) false 500000100 1000000 true true
      = .error (.bagel .InsufficientFunds) := by
  constructor
  · exact (claim_C10_rent_exempt_floor 100 vaultC10 empC10 defaultPubkey
      2000000000 (toLeBytes8 2000000000) false 500000100 1000000 true true
      (by norm_num) (by norm_num [empC10]) 100 (by decide)
      (by norm_num [MIN_WITHDRAW_INTERVAL])).1 (by norm_num [vaultC10])
  · exact (claim_C10_rent_exempt_floor 100 vaultC10 empC10 defaultPubkey
      500000000 (toLeBytes8 500000000) false 500000100 1000000 true true
      (by norm_num) (by norm_num [empC10]) 100 (by decide)
      (by norm_num [MIN_WITHDRAW_INTERVAL])).2 (by norm_num [vaultC10])
      (by norm_num)

/-- Witness for C6: a concrete request (signer of 32 three-bytes against a
recorded identity encrypting 32 nine-bytes) does not surface
`IdentityVerificationFailed`. -/
theorem claim_C6_no_identity_verification_witness :
    requestWithdrawal 0
      { authority := defaultPubkey
        total_balance := 10
        encrypted_business_count := .enc [0]
        encrypted_employee_count := .enc [0]
        next_business_index := 1
        is_active := true
        bump := 1
        confidential_mint := defaultPubkey
        use_confidential_tokens := false }
      { business_entry := defaultPubkey
        employee_index := 0
        encrypted_employee_id := .enc (List.replicate 32 9)
        encrypted_salary := .enc (toLeBytes8 100)
        encrypted_accrued := .enc (toLeBytes8 500)
        last_action := 50
        is_active := true
        bump := 2 }
      (List.replicate 32 3) 7 [1] true 10 5 false false
      ≠ .error (.bagel .IdentityVerificationFailed) :=
  claim_C6_no_identity_verification.1 0 _ _ (List.replicate 32 3) 7 [1]
    true 10 5 false false
